import Mathlib

/-!
Shallow embedding of `tracecmd/trace-msg.c` (trace-cmd message protocol):
wire codec, message transport, option codec, handshake and bulk data
transfer, followed by theorems checking the specification's claims.

Conventions of the embedding:
* 32-bit wire fields (after `ntohl`) are `Nat` values; where the C code
  stores such a value into an `int`, the reinterpretation is made explicit
  with `toInt32`.
* The byte stream behind a descriptor is a `List Nat` of bytes; a `read`
  that would block forever once the peer is gone is modelled by the stream
  running out, which the code's `msg_read` maps to `-ENOTCONN`.
* errno constants: EINVAL=22, ENOMSG=42, ECOMM=70, ENOTCONN=107,
  ETIMEDOUT=110.
-/

/-- `MSG_MAX_LEN`: two 4k pages, the maximum total message size. -/
def MSG_MAX_LEN : Nat := 8192

/-- `MSG_HDR_LEN`: size of `struct tracecmd_msg_header` (three u32 fields). -/
def MSG_HDR_LEN : Nat := 12

/-- `MSG_MAX_DATA_LEN = MSG_MAX_LEN - MSG_HDR_LEN`. -/
def MSG_MAX_DATA_LEN : Nat := MSG_MAX_LEN - MSG_HDR_LEN

/-- `MAX_OPTION_SIZE`. -/
def MAX_OPTION_SIZE : Nat := 4096

/-- Command identifiers from the `MSG_MAP` table. -/
def MSG_CLOSE : Nat := 0

def MSG_TINIT : Nat := 1

def MSG_RINIT : Nat := 2

def MSG_SEND_DATA : Nat := 3

def MSG_FIN_DATA : Nat := 4

/-- `MSG_NR_COMMANDS`: one past the last valid command. -/
def MSG_NR_COMMANDS : Nat := 5

/-- `msg_cmd_sizes[]`: fixed payload size per command, from `MSG_MAP`:
CLOSE 0, TINIT `sizeof(struct tracecmd_msg_tinit)` = 12,
RINIT `sizeof(struct tracecmd_msg_rinit)` = 4, SEND_DATA 0, FIN_DATA 0. -/
def msg_cmd_sizes : Nat → Nat
  | 1 => 12
  | 2 => 4
  | _ => 0

/-- Reinterpretation of a 32-bit unsigned value as a C `int`
(two's complement), as happens when the code assigns `ntohl(...)` to an
`int` variable. -/
def toInt32 (n : Nat) : Int :=
  if n % 2 ^ 32 < 2 ^ 31 then (n % 2 ^ 32 : Int) else (n % 2 ^ 32 : Int) - 2 ^ 32

/-- `struct tracecmd_msg_header` after `ntohl` of each field. -/
structure MsgHeader where
  size : Nat
  cmd : Nat
  cmd_size : Nat
  deriving Repr, DecidableEq

/-- `msg_read(fd, buf, size, n)`: loops until exactly `size` bytes are
consumed (short reads are retried, `EINTR` is retried transparently); a
zero-byte `read` — the stream running out — returns `-ENOTCONN`. On
success it yields the bytes read and the rest of the stream. -/
def msg_read (stream : List Nat) (size : Nat) : Except Int (List Nat × List Nat) :=
  if size ≤ stream.length then .ok (stream.take size, stream.drop size)
  else .error (-107)

/-- What `msg_read_extra` deposits into the message: the bytes placed in
the fixed-payload slot (read into the `tracecmd_msg` union), the bytes
read into `scratch_buf` and discarded, and the heap variable payload
(`msg->buf`), absent when the declared size leaves no remainder. -/
structure ExtraResult where
  fixed : List Nat
  scratch : List Nat
  buf : Option (List Nat)
  deriving Repr, DecidableEq

/-- `msg_read_extra(fd, msg, &n, size)` with `*n = MSG_HDR_LEN` on entry
(the header has been consumed). Validates the command id and `cmd_size`
as C `int`s, reads `min(cmd_size, msg_cmd_sizes[cmd])` bytes into the
fixed slot, the remaining `cmd_size` bytes into `scratch_buf`, and — when
`size > *n` — allocates and fills `size - *n` bytes of variable payload.
(The source guards the two fixed reads with `if (cmd_size > 0)`; a
zero-length `msg_read` is a no-op, so the guard is dropped here.) -/
def msg_read_extra (hdr : MsgHeader) (size : Nat) (stream : List Nat) :
    Except Int ExtraResult :=
  if toInt32 hdr.cmd < 0 ∨ (MSG_NR_COMMANDS : Int) ≤ toInt32 hdr.cmd then .error (-22)
  else if toInt32 hdr.cmd_size < 0 then .error (-22)
  else
    let cmd := (toInt32 hdr.cmd).toNat
    let cmd_size := (toInt32 hdr.cmd_size).toNat
    let rsize := if msg_cmd_sizes cmd < cmd_size then msg_cmd_sizes cmd else cmd_size
    match msg_read stream rsize with
    | .error e => .error e
    | .ok (fx, s1) =>
      match msg_read s1 (cmd_size - rsize) with
      | .error e => .error e
      | .ok (sc, s2) =>
        -- at this point *n = MSG_HDR_LEN + cmd_size
        if MSG_HDR_LEN + cmd_size < size then
          match msg_read s2 (size - (MSG_HDR_LEN + cmd_size)) with
          | .error e => .error e
          | .ok (b, _) => .ok ⟨fx, sc, some b⟩
        else .ok ⟨fx, sc, none⟩

/-- `tracecmd_msg_recv(fd, msg)` after the header has been read and
decoded: validates the declared size against `[MSG_HDR_LEN, MSG_MAX_LEN]`
(`-ENOMSG` outside), returns immediately when the size is exactly
`MSG_HDR_LEN`, and otherwise delegates to `msg_read_extra` for the body.
`stream` is the byte stream following the 12 header bytes. -/
def tracecmd_msg_recv (hdr : MsgHeader) (stream : List Nat) :
    Except Int ExtraResult :=
  if MSG_MAX_LEN < hdr.size then .error (-42)
  else if hdr.size < MSG_HDR_LEN then .error (-42)
  else if MSG_HDR_LEN < hdr.size then msg_read_extra hdr hdr.size stream
  else .ok ⟨[], [], none⟩

/-- Modelled from the spec: the handle flag constants live in
`trace-msg.h`, which is not part of the sources at hand; the spec gives
the handle "a role flag (client/server) and transport flag (TCP vs
other)", so the two are modelled as distinct bits of the `flags` word. -/
def TRACECMD_MSG_FL_SERVER : Nat := 1

/-- Modelled from the spec: see `TRACECMD_MSG_FL_SERVER`. -/
def TRACECMD_MSG_FL_USE_TCP : Nat := 2

/-- `struct tracecmd_msg_handle` (fields used by this file: `flags`,
`cpu_count`) together with the `done` field of the enclosing
`struct tracecmd_msg_server`; `done` is only backed by memory when the
handle was allocated with the server flag. -/
structure MsgHandle where
  flags : Nat
  cpu_count : Int
  done : Bool
  deriving Repr, DecidableEq

/-- `make_server(msg_handle)`: returns the handle cast to
`struct tracecmd_msg_server *` when the server flag is set, and `NULL`
(here `none`) otherwise. -/
def make_server (h : MsgHandle) : Option MsgHandle :=
  if h.flags &&& TRACECMD_MSG_FL_SERVER ≠ 0 then some h else none

/-- `tracecmd_msg_done(msg_handle)`: reads `msg_server->done` through the
result of `make_server` with no null check; a `none` result models the
dereference of the null pointer — no defined Boolean is produced. -/
def tracecmd_msg_done (h : MsgHandle) : Option Bool :=
  (make_server h).map MsgHandle.done

/-- `tracecmd_msg_set_done(msg_handle)`: writes `msg_server->done = true`
through the result of `make_server` with no null check; `none` models the
null-pointer store — no defined handle state results. -/
def tracecmd_msg_set_done (h : MsgHandle) : Option MsgHandle :=
  (make_server h).map (fun s => { s with done := true })

/-- `struct tracecmd_msg_opt` after `ntohl` of each field. -/
structure MsgOpt where
  size : Nat
  opt_cmd : Nat
  deriving Repr, DecidableEq

/-- `process_option(msg_handle, opt)`: the only understood option is
`MSGOPT_USETCP` (1), which sets `TRACECMD_MSG_FL_USE_TCP` on the handle
and reports `true`; any other option command reports `false`. -/
def process_option (h : MsgHandle) (opt : MsgOpt) : MsgHandle × Bool :=
  if opt.opt_cmd = 1 then
    ({ h with flags := h.flags ||| TRACECMD_MSG_FL_USE_TCP }, true)
  else (h, false)

/-- The option loop of `tracecmd_msg_initial_setting` (`for (i = 0;
i < options; i++)`). `optAt` views the message's variable payload as the
option record located at a byte offset (the code reinterprets
`(void *)msg.opt + offset`). `size` is the running u32 byte count
starting at `MSG_HDR_LEN + cmd_size`; the addition `size += ntohl(opt->size)`
is u32 arithmetic, hence the `% 2 ^ 32`. `.inl` is the `goto error` exit
(with the handle as mutated so far), `.inr` is loop completion. -/
def optLoop (optAt : Nat → MsgOpt) (hdrSize : Nat) :
    Nat → Nat → Nat → MsgHandle → MsgHandle ⊕ MsgHandle
  | 0, _, _, h => .inr h
  | n + 1, offset, size, h =>
    if hdrSize < size + 8 then .inl h
    else
      let opt := optAt offset
      let size' := (size + opt.size) % 2 ^ 32
      if hdrSize < size' then .inl h
      else if MAX_OPTION_SIZE < opt.size then .inl h
      else
        let (h', s) := process_option h opt
        if s then optLoop optAt hdrSize n (offset + opt.size) size' h'
        else .inl h'

/-- The sequence of option records the loop would encounter: each record
is read at the byte offset accumulated from the previous records' own
declared sizes. -/
def optSeq (optAt : Nat → MsgOpt) : Nat → Nat → List MsgOpt
  | 0, _ => []
  | n + 1, offset => optAt offset :: optSeq optAt n (offset + (optAt offset).size)

/-- Cumulative declared size of the first `k` option records starting at
`offset`. -/
def optPrefixSum (optAt : Nat → MsgOpt) : Nat → Nat → Nat
  | 0, _ => 0
  | k + 1, offset => (optAt offset).size + optPrefixSum optAt k (offset + (optAt offset).size)

/-- A received TINIT message as `tracecmd_msg_initial_setting` sees it:
decoded header, the three fixed-payload fields, and the variable payload
viewed through `optAt` (option record at a byte offset). -/
structure TinitMsg where
  hdr : MsgHeader
  cpus : Nat
  page_size : Nat
  opt_num : Nat
  optAt : Nat → MsgOpt

/-- `tracecmd_msg_initial_setting(msg_handle)` applied to the received
message: rejects a non-TINIT command, negative `cpus` (as C `int`),
stores the cpu count on the handle, rejects non-positive `page_size`,
then runs the option loop (`for` runs `max(0, options)` iterations, as a
negative `int` bound skips the loop). Returns the possibly-updated handle
and the return value (`pagesize` on success, `-EINVAL` on error). -/
def tracecmd_msg_initial_setting (h : MsgHandle) (m : TinitMsg) :
    MsgHandle × Int :=
  if m.hdr.cmd ≠ MSG_TINIT then (h, -22)
  else
    let cpus := toInt32 m.cpus
    if cpus < 0 then (h, -22)
    else
      let h1 : MsgHandle := { h with cpu_count := cpus }
      let pagesize := toInt32 m.page_size
      if pagesize ≤ 0 then (h1, -22)
      else
        let size0 := (MSG_HDR_LEN + m.hdr.cmd_size) % 2 ^ 32
        let options := (toInt32 m.opt_num).toNat
        match optLoop m.optAt m.hdr.size options 0 size0 h1 with
        | .inl h2 => (h2, -22)
        | .inr h2 => (h2, pagesize)

/-- A received RINIT reply as `tracecmd_msg_send_init_data` sees it:
the decoded header, the `cpus` field of the fixed payload, and the bytes
of the variable payload `tracecmd_msg_recv` actually placed behind
`msg.port_array` (empty when the declared size left no remainder). -/
structure RinitReply where
  size : Nat
  cmd : Nat
  cmd_size : Nat
  cpus : Nat
  buf : List Nat

/-- The port-array indices the loop `for (i = 0; i < cpus; i++)` of
`tracecmd_msg_send_init_data` reads, determined solely by the reply's
`cpus` field (a negative C `int` bound skips the loop). -/
def port_array_reads (reply : RinitReply) : List Nat :=
  List.range (toInt32 reply.cpus).toNat

/-- The reply-parsing step of `tracecmd_msg_send_init_data`: each read of
`recv_msg.port_array[i]` fetches 4 bytes at offset `4*i` of the variable
payload. The source performs the access unconditionally; an access past
the buffer `tracecmd_msg_recv` delivered is an out-of-bounds read,
modelled as `none`. -/
def tracecmd_msg_send_init_data_ports (reply : RinitReply) :
    List (Option (List Nat)) :=
  (port_array_reads reply).map fun i =>
    if 4 * (i + 1) ≤ reply.buf.length then some ((reply.buf.drop (4 * i)).take 4)
    else none

/-- One SEND_DATA message as emitted by `tracecmd_msg_data_send`:
the header's declared size and the payload bytes `msg_write` puts on the
wire (`size - MSG_HDR_LEN` bytes of `msg.buf`, `cmd_size` being 0). -/
structure DataMsg where
  hdrSize : Nat
  payload : List Nat
  deriving Repr, DecidableEq

/-- `tracecmd_msg_data_send(msg_handle, buf, size)` with writes
succeeding: the `while (n)` chunking loop emits a full 8192-byte-header
message per `MSG_MAX_DATA_LEN` chunk and a final message of header size
`MSG_HDR_LEN + n` for the remainder. The second component is the
function's return value: `ret` is declared without an initializer and
assigned only inside the loop, so when the loop body never runs the
returned value is undefined, modelled as `none`; when the loop runs, the
last (successful) `msg_write` leaves `ret = 0`. -/
def tracecmd_msg_data_send (buf : List Nat) : List DataMsg × Option Int :=
  if buf.length = 0 then ([], none)
  else if MSG_MAX_DATA_LEN < buf.length then
    let rest := tracecmd_msg_data_send (buf.drop MSG_MAX_DATA_LEN)
    (⟨MSG_MAX_LEN, buf.take MSG_MAX_DATA_LEN⟩ :: rest.1, some 0)
  else ([⟨MSG_HDR_LEN + buf.length, buf⟩], some 0)
termination_by buf.length
decreasing_by
  simp only [List.length_drop, MSG_MAX_DATA_LEN, MSG_MAX_LEN, MSG_HDR_LEN] at *
  omega

/-- A message as delivered to `tracecmd_msg_collect_data` by a successful
`tracecmd_msg_recv_wait`: decoded header fields and the variable payload
bytes behind `msg.buf`. -/
structure RMsg where
  cmd : Nat
  size : Nat
  cmd_size : Nat
  buf : List Nat
  deriving Repr, DecidableEq

/-- Bytes a SEND_DATA message contributes to the output descriptor:
`n = ntohl(size) - MSG_HDR_LEN - ntohl(cmd_size)` as a C `int`; the
`while (t > 0)` write loop writes `n` bytes of `msg.buf` (none when
`n <= 0`). -/
def writeLen (m : RMsg) : Nat :=
  ((m.size : Int) - (MSG_HDR_LEN : Int) - (m.cmd_size : Int)).toNat

/-- First receive loop of `tracecmd_msg_collect_data`: FIN_DATA breaks
the loop (`.inr`: bytes written so far and the remaining stream); a
SEND_DATA message has its payload written to the output and the loop
continues; any other command jumps to the `error` label with `ret` still
holding the `0` of the successful receive (`.inl (0, _)`); an exhausted
stream stands for `tracecmd_msg_recv_wait` timing out (`-ETIMEDOUT`). -/
def collectPhase1 : List RMsg → (Int × List Nat) ⊕ (List Nat × List RMsg)
  | [] => .inl (-110, [])
  | m :: rest =>
    if m.cmd = MSG_FIN_DATA then .inr ([], rest)
    else if m.cmd ≠ MSG_SEND_DATA then .inl (0, [])
    else
      match collectPhase1 rest with
      | .inl (r, o) => .inl (r, m.buf.take (writeLen m) ++ o)
      | .inr (o, rest') => .inr (m.buf.take (writeLen m) ++ o, rest')

/-- `tracecmd_msg_collect_data(msg_handle, ofd)`: the first loop as
`collectPhase1`, then the post-FIN_DATA drain: when the handle's `done`
flag is already set the drain is skipped; otherwise one message is
received (the body always exits the loop), `MSG_CLOSE` finishing the
connection with 0 and anything else returning `-EINVAL`; an exhausted
stream makes the blocking `tracecmd_msg_recv` see the peer gone
(`-ENOTCONN`). Result: (return value, bytes written to `ofd`). -/
def tracecmd_msg_collect_data (done : Bool) (msgs : List RMsg) :
    Int × List Nat :=
  match collectPhase1 msgs with
  | .inl (r, o) => (r, o)
  | .inr (o, rest) =>
    if done then (0, o)
    else
      match rest with
      | [] => (-107, o)
      | m :: _ => if m.cmd = MSG_CLOSE then (0, o) else (-22, o)

/-- A SEND_DATA message emitted by `tracecmd_msg_data_send` as it arrives
at the server: command `MSG_SEND_DATA`, `cmd_size` 0 (the SEND_DATA entry
of `msg_cmd_sizes`), the declared header size and the payload unchanged
by the transport. -/
def dataToRMsg (d : DataMsg) : RMsg :=
  ⟨MSG_SEND_DATA, d.hdrSize, 0, d.payload⟩

/-!  Theorems.  First a few helper lemmas about the transport functions. -/

theorem toInt32_eq_of_lt {n : Nat} (h : n < 2 ^ 31) : toInt32 n = n := by
  have hm : n % 2 ^ 32 = n := Nat.mod_eq_of_lt (by omega)
  unfold toInt32
  rw [hm, if_pos h]
  omega

theorem msg_read_ok (s : List Nat) (n : Nat) (h : n ≤ s.length) :
    msg_read s n = .ok (s.take n, s.drop n) := by
  unfold msg_read
  rw [if_pos h]

theorem msg_read_error_val (s : List Nat) (n : Nat) (e : Int)
    (h : msg_read s n = .error e) : e = -107 := by
  unfold msg_read at h
  split at h <;> simp_all

/-- `msg_read_extra` may fail with `-EINVAL` or `-ENOTCONN`, never with
the `-ENOMSG` of the size validation in `tracecmd_msg_recv`. -/
theorem msg_read_extra_ne_enomsg (hdr : MsgHeader) (size : Nat)
    (stream : List Nat) : msg_read_extra hdr size stream ≠ .error (-42) := by
  unfold msg_read_extra
  split
  · simp
  split
  · simp
  dsimp only
  split
  · next e heq =>
    have := msg_read_error_val _ _ _ heq
    simp [this]
  next p heq =>
    split
    · next e heq2 =>
      have := msg_read_error_val _ _ _ heq2
      simp [this]
    next p2 heq2 =>
      split
      · split
        · next e heq3 =>
          have := msg_read_error_val _ _ _ heq3
          simp [this]
        · simp
      · simp

/-- C4: for every received header whose declared size field is outside
the inclusive range [12, 8192], message reception fails with the size
validation error `-ENOMSG`; for every size inside that range the size
check passes (reception never reports the size-validation error). -/
theorem recv_size_validated (hdr : MsgHeader) (stream : List Nat) :
    (hdr.size < MSG_HDR_LEN ∨ MSG_MAX_LEN < hdr.size →
      tracecmd_msg_recv hdr stream = .error (-42)) ∧
    (MSG_HDR_LEN ≤ hdr.size → hdr.size ≤ MSG_MAX_LEN →
      tracecmd_msg_recv hdr stream ≠ .error (-42)) := by
  have hH : MSG_HDR_LEN = 12 := rfl
  have hM : MSG_MAX_LEN = 8192 := rfl
  constructor
  · intro hout
    unfold tracecmd_msg_recv
    rcases hout with hlt | hgt
    · rw [if_neg (by omega), if_pos hlt]
    · rw [if_pos hgt]
  · intro hlo hhi
    unfold tracecmd_msg_recv
    rw [if_neg (by omega), if_neg (by omega)]
    split
    · exact msg_read_extra_ne_enomsg hdr hdr.size stream
    · simp

/-- Witness for `recv_size_validated`: a header of size 5 is rejected
with `-ENOMSG`; a bare 12-byte header passes the size check. -/
theorem recv_size_validated_witness :
    tracecmd_msg_recv ⟨5, 0, 0⟩ [] = .error (-42) ∧
    tracecmd_msg_recv ⟨12, 0, 0⟩ [] ≠ .error (-42) :=
  ⟨(recv_size_validated ⟨5, 0, 0⟩ []).1 (by decide),
   (recv_size_validated ⟨12, 0, 0⟩ []).2 (by decide) (by decide)⟩

/-- C3 counterexample: the claim says every received message has its
command validated against the 5 known commands, including messages whose
declared size equals `HEADER_LEN`.  A header declaring size 12 and the
unknown command 99 is accepted by `tracecmd_msg_recv` (the command check
lives in `msg_read_extra`, which is only reached when `size > HEADER_LEN`). -/
theorem recv_accepts_unknown_cmd_at_header_size :
    tracecmd_msg_recv ⟨12, 99, 0⟩ [] = .ok ⟨[], [], none⟩ ∧
    MSG_NR_COMMANDS ≤ 99 := by
  constructor
  · rfl
  · decide

/-- C3 amended: `tracecmd_msg_recv` validates the command identifier and
fails with `-EINVAL` for any command outside the 5 known ones, but only
for messages whose declared size exceeds `HEADER_LEN`; a message whose
declared size is exactly `HEADER_LEN` is accepted without any command
validation. -/
theorem recv_cmd_validated_only_with_body :
    (∀ (hdr : MsgHeader) (stream : List Nat),
      MSG_HDR_LEN < hdr.size → hdr.size ≤ MSG_MAX_LEN →
      (toInt32 hdr.cmd < 0 ∨ ((MSG_NR_COMMANDS : Nat) : Int) ≤ toInt32 hdr.cmd) →
      tracecmd_msg_recv hdr stream = .error (-22)) ∧
    (∀ (hdr : MsgHeader) (stream : List Nat), hdr.size = MSG_HDR_LEN →
      tracecmd_msg_recv hdr stream = .ok ⟨[], [], none⟩) := by
  have hH : MSG_HDR_LEN = 12 := rfl
  have hM : MSG_MAX_LEN = 8192 := rfl
  constructor
  · intro hdr stream hlo hhi hbad
    unfold tracecmd_msg_recv
    rw [if_neg (by omega), if_neg (by omega), if_pos hlo]
    unfold msg_read_extra
    rw [if_pos hbad]
  · intro hdr stream hsz
    unfold tracecmd_msg_recv
    rw [if_neg (by omega), if_neg (by omega), if_neg (by omega)]

/-- Witness for `recv_cmd_validated_only_with_body`: command 7 with a
declared body is rejected with `-EINVAL`; command 99 at exactly header
size is accepted. -/
theorem recv_cmd_validated_only_with_body_witness :
    tracecmd_msg_recv ⟨13, 7, 0⟩ [0] = .error (-22) ∧
    tracecmd_msg_recv ⟨12, 99, 5⟩ [] = .ok ⟨[], [], none⟩ :=
  ⟨recv_cmd_validated_only_with_body.1 ⟨13, 7, 0⟩ [0] (by decide) (by decide)
      (by decide),
   recv_cmd_validated_only_with_body.2 ⟨12, 99, 5⟩ [] (by decide)⟩

/-- C9: `tracecmd_msg_done` and `tracecmd_msg_set_done` require the
server role flag: on a handle without `TRACECMD_MSG_FL_SERVER`,
`make_server` yields no server object (`NULL`), and both functions, which
access the `done` field through that result with no guard, have no
defined outcome (`none`). -/
theorem done_requires_server_flag (h : MsgHandle)
    (hf : h.flags &&& TRACECMD_MSG_FL_SERVER = 0) :
    make_server h = none ∧ tracecmd_msg_done h = none ∧
    tracecmd_msg_set_done h = none := by
  unfold tracecmd_msg_done tracecmd_msg_set_done make_server
  simp [hf]

/-- Witness for `done_requires_server_flag` at a client handle
(flags 0). -/
theorem done_requires_server_flag_witness :
    make_server ⟨0, 0, false⟩ = none ∧ tracecmd_msg_done ⟨0, 0, false⟩ = none ∧
    tracecmd_msg_set_done ⟨0, 0, false⟩ = none :=
  done_requires_server_flag ⟨0, 0, false⟩ (by decide)

/-- C10: `tracecmd_msg_data_send` called with `size = 0`: the chunking
loop body never runs, so no SEND_DATA message is emitted and the returned
`ret` is never assigned on any path (modelled as `none`). -/
theorem data_send_empty_no_msg_uninitialized_ret :
    tracecmd_msg_data_send [] = ([], none) := by
  unfold tracecmd_msg_data_send
  simp

/-- C1: in the first receive loop of `tracecmd_msg_collect_data`, a
message whose command is neither SEND_DATA nor FIN_DATA jumps to the
`error` label while `ret` still holds the 0 of the successful receive, so
the function returns 0 (success) — contradicting the specification, which
calls this a protocol error with a negative result (the post-FIN_DATA
loop's parallel branch does set `ret = -EINVAL` first).  Evaluated here on
a stream delivering one RINIT message before any FIN_DATA. -/
theorem collect_data_unexpected_cmd_returns_zero :
    tracecmd_msg_collect_data false [⟨MSG_RINIT, 12, 0, []⟩] = (0, []) := by
  rfl

/-- C2 counterexample: the claim says a failing
`tracecmd_msg_initial_setting` leaves the handle's flags and cpu count
unchanged.  On a TINIT declaring `cpus = 1` and `page_size = 0` the call
fails with `-EINVAL`, yet the handle's cpu count — stored before the
page-size validation — has changed from 0 to 1. -/
theorem initial_setting_partial_update :
    (tracecmd_msg_initial_setting ⟨0, 0, false⟩
        ⟨⟨24, 1, 12⟩, 1, 0, 0, fun _ => ⟨0, 0⟩⟩).2 = -22 ∧
    (tracecmd_msg_initial_setting ⟨0, 0, false⟩
        ⟨⟨24, 1, 12⟩, 1, 0, 0, fun _ => ⟨0, 0⟩⟩).1.cpu_count = 1 ∧
    (⟨0, 0, false⟩ : MsgHandle).cpu_count = 0 := by
  refine ⟨?_, ?_, rfl⟩ <;> rfl

/-- The option loop of `tracecmd_msg_initial_setting` only ever modifies
the handle's flags (through `process_option`): whichever way it exits,
the resulting handle carries the cpu count it started with. -/
theorem optLoop_cpu_count (optAt : Nat → MsgOpt) (hdrSize : Nat) :
    ∀ (n offset size : Nat) (h h2 : MsgHandle),
    (optLoop optAt hdrSize n offset size h = .inl h2 ∨
     optLoop optAt hdrSize n offset size h = .inr h2) →
    h2.cpu_count = h.cpu_count := by
  intro n
  induction n with
  | zero =>
    intro offset size h h2 hres
    rcases hres with hres | hres
    · simp [optLoop] at hres
    · obtain rfl : h = h2 := by simpa [optLoop] using hres
      rfl
  | succ n ih =>
    intro offset size h h2 hres
    unfold optLoop at hres
    by_cases hc1 : hdrSize < size + 8
    · rw [if_pos hc1] at hres
      rcases hres with hres | hres
      · obtain rfl : h = h2 := by simpa using hres
        rfl
      · simp at hres
    rw [if_neg hc1] at hres
    dsimp only at hres
    by_cases hc2 : hdrSize < (size + (optAt offset).size) % 2 ^ 32
    · rw [if_pos hc2] at hres
      rcases hres with hres | hres
      · obtain rfl : h = h2 := by simpa using hres
        rfl
      · simp at hres
    rw [if_neg hc2] at hres
    by_cases hc3 : MAX_OPTION_SIZE < (optAt offset).size
    · rw [if_pos hc3] at hres
      rcases hres with hres | hres
      · obtain rfl : h = h2 := by simpa using hres
        rfl
      · simp at hres
    rw [if_neg hc3] at hres
    by_cases hc4 : (optAt offset).opt_cmd = 1
    · simp only [process_option, if_pos hc4, if_true] at hres
      have hcc := ih _ _ _ h2 hres
      exact hcc
    · simp only [process_option, if_neg hc4, if_false] at hres
      rcases hres with hres | hres
      · obtain rfl : h = h2 := by simpa using hres
        rfl
      · simp at hres

/-- C2 amended: server-side TINIT processing reports each validation
failure with a negative error — a non-TINIT command, negative cpus,
non-positive page_size, or a failing option loop all yield `-EINVAL` —
but it is not atomic with respect to the connection handle: failures at
the command or cpus checks return with the handle unchanged, while a
page_size or option failure occurs after the cpu count has been stored
(the error return leaves it set to the message's cpus value), and an
option failure can leave the use-TCP flag set by an option processed
earlier in the same message (last conjunct: a TINIT whose first option is
"use TCP" and whose second is unknown fails with the TCP flag set). -/
theorem initial_setting_error_behaviour :
    (∀ (h : MsgHandle) (m : TinitMsg), m.hdr.cmd ≠ MSG_TINIT →
      tracecmd_msg_initial_setting h m = (h, -22)) ∧
    (∀ (h : MsgHandle) (m : TinitMsg), m.hdr.cmd = MSG_TINIT →
      toInt32 m.cpus < 0 → tracecmd_msg_initial_setting h m = (h, -22)) ∧
    (∀ (h : MsgHandle) (m : TinitMsg), m.hdr.cmd = MSG_TINIT →
      0 ≤ toInt32 m.cpus → toInt32 m.page_size ≤ 0 →
      (tracecmd_msg_initial_setting h m).2 < 0 ∧
      (tracecmd_msg_initial_setting h m).1.cpu_count = toInt32 m.cpus) ∧
    (∀ (h : MsgHandle) (m : TinitMsg) (h2 : MsgHandle), m.hdr.cmd = MSG_TINIT →
      0 ≤ toInt32 m.cpus → 0 < toInt32 m.page_size →
      optLoop m.optAt m.hdr.size (toInt32 m.opt_num).toNat 0
          ((MSG_HDR_LEN + m.hdr.cmd_size) % 2 ^ 32)
          { h with cpu_count := toInt32 m.cpus } = .inl h2 →
      tracecmd_msg_initial_setting h m = (h2, -22) ∧
      h2.cpu_count = toInt32 m.cpus) ∧
    ((tracecmd_msg_initial_setting ⟨0, 0, false⟩
        ⟨⟨40, 1, 12⟩, 1, 4096, 2, fun o => if o = 0 then ⟨8, 1⟩ else ⟨8, 5⟩⟩).2
        = -22 ∧
     (tracecmd_msg_initial_setting ⟨0, 0, false⟩
        ⟨⟨40, 1, 12⟩, 1, 4096, 2, fun o => if o = 0 then ⟨8, 1⟩ else ⟨8, 5⟩⟩).1.flags
        &&& TRACECMD_MSG_FL_USE_TCP ≠ 0) := by
  refine ⟨?_, ?_, ?_, ?_, ?_, ?_⟩
  · intro h m hcmd
    unfold tracecmd_msg_initial_setting
    rw [if_pos hcmd]
  · intro h m hcmd hneg
    unfold tracecmd_msg_initial_setting
    rw [if_neg (by simp [hcmd]), if_pos hneg]
  · intro h m hcmd hcpus hpg
    unfold tracecmd_msg_initial_setting
    rw [if_neg (by simp [hcmd]), if_neg (by omega), if_pos hpg]
    exact ⟨by norm_num, rfl⟩
  · intro h m h2 hcmd hcpus hpg hopt
    unfold tracecmd_msg_initial_setting
    rw [if_neg (by simp [hcmd]), if_neg (by omega), if_neg (by omega)]
    dsimp only
    rw [hopt]
    have hcc := optLoop_cpu_count m.optAt m.hdr.size
      (toInt32 m.opt_num).toNat 0 ((MSG_HDR_LEN + m.hdr.cmd_size) % 2 ^ 32)
      { h with cpu_count := toInt32 m.cpus } h2 (Or.inl hopt)
    exact ⟨rfl, hcc⟩
  · rfl
  · decide

/-- Witness for `initial_setting_error_behaviour`: one concrete input per
quantified failure case — wrong command (RINIT), negative cpus (the u32
`2 ^ 31` read as a negative C int), zero page_size (with cpu count left
updated), and an option loop failing on an unknown second option. -/
theorem initial_setting_error_behaviour_witness :
    tracecmd_msg_initial_setting ⟨0, 0, false⟩
        ⟨⟨12, 2, 0⟩, 0, 0, 0, fun _ => ⟨0, 0⟩⟩ = (⟨0, 0, false⟩, -22) ∧
    tracecmd_msg_initial_setting ⟨0, 0, false⟩
        ⟨⟨24, 1, 12⟩, 2 ^ 31, 4096, 0, fun _ => ⟨0, 0⟩⟩ = (⟨0, 0, false⟩, -22) ∧
    ((tracecmd_msg_initial_setting ⟨0, 0, false⟩
        ⟨⟨24, 1, 12⟩, 1, 0, 0, fun _ => ⟨0, 0⟩⟩).2 < 0 ∧
     (tracecmd_msg_initial_setting ⟨0, 0, false⟩
        ⟨⟨24, 1, 12⟩, 1, 0, 0, fun _ => ⟨0, 0⟩⟩).1.cpu_count = toInt32 1) ∧
    (tracecmd_msg_initial_setting ⟨0, 0, false⟩
        ⟨⟨40, 1, 12⟩, 1, 4096, 2, fun o => if o = 0 then ⟨8, 1⟩ else ⟨8, 5⟩⟩
        = (⟨2, 1, false⟩, -22) ∧
     (⟨2, 1, false⟩ : MsgHandle).cpu_count = toInt32 1) :=
  ⟨initial_setting_error_behaviour.1 ⟨0, 0, false⟩
      ⟨⟨12, 2, 0⟩, 0, 0, 0, fun _ => ⟨0, 0⟩⟩ (by decide),
   initial_setting_error_behaviour.2.1 ⟨0, 0, false⟩
      ⟨⟨24, 1, 12⟩, 2 ^ 31, 4096, 0, fun _ => ⟨0, 0⟩⟩ rfl (by decide),
   initial_setting_error_behaviour.2.2.1 ⟨0, 0, false⟩
      ⟨⟨24, 1, 12⟩, 1, 0, 0, fun _ => ⟨0, 0⟩⟩ rfl (by decide) (by decide),
   initial_setting_error_behaviour.2.2.2.1 ⟨0, 0, false⟩
      ⟨⟨40, 1, 12⟩, 1, 4096, 2, fun o => if o = 0 then ⟨8, 1⟩ else ⟨8, 5⟩⟩
      ⟨2, 1, false⟩ rfl (by decide) (by decide) (by decide)⟩

/-- C8: the client side of the handshake
(`tracecmd_msg_send_init_data`) reads exactly `cpus` port entries, the
count taken from the RINIT reply's `cpus` field alone — independent of
the reply's declared message size — and when the reply's variable payload
holds fewer than `cpus` 32-bit entries (or none at all), some read falls
outside the buffer `tracecmd_msg_recv` delivered: the accesses carry no
bounds check. -/
theorem send_init_data_port_reads_unguarded (reply : RinitReply)
    (hshort : reply.buf.length < 4 * (toInt32 reply.cpus).toNat) :
    (tracecmd_msg_send_init_data_ports reply).length
      = (toInt32 reply.cpus).toNat ∧
    none ∈ tracecmd_msg_send_init_data_ports reply := by
  constructor
  · simp [tracecmd_msg_send_init_data_ports, port_array_reads]
  · have hpos : 0 < (toInt32 reply.cpus).toNat := by omega
    refine List.mem_map.mpr ⟨(toInt32 reply.cpus).toNat - 1, ?_, ?_⟩
    · exact List.mem_range.mpr (by omega)
    · rw [if_neg (by omega)]

/-- Witness for `send_init_data_port_reads_unguarded`: a reply declaring
2 cpus with an empty variable payload. -/
theorem send_init_data_port_reads_unguarded_witness :
    (tracecmd_msg_send_init_data_ports ⟨12, 2, 4, 2, []⟩).length
      = (toInt32 2).toNat ∧
    none ∈ tracecmd_msg_send_init_data_ports ⟨12, 2, 4, 2, []⟩ :=
  send_init_data_port_reads_unguarded ⟨12, 2, 4, 2, []⟩ (by decide)

/-- C6: receiving a message whose header declares `cmd_size` larger than
the schema-defined fixed size for its (valid) command: only the schema
size is read into the fixed-payload slot, the excess `cmd_size` bytes are
read into the scratch buffer and discarded, and — since
`size > HEADER_LEN + cmd_size` — a variable payload of exactly
`size - (HEADER_LEN + cmd_size)` bytes is allocated and filled. -/
theorem recv_caps_fixed_and_sizes_var (hdr : MsgHeader) (stream : List Nat)
    (hcmd : hdr.cmd < MSG_NR_COMMANDS)
    (hgt : msg_cmd_sizes hdr.cmd < hdr.cmd_size)
    (hsz : MSG_HDR_LEN + hdr.cmd_size < hdr.size)
    (hmax : hdr.size ≤ MSG_MAX_LEN)
    (hstream : hdr.size - MSG_HDR_LEN ≤ stream.length) :
    tracecmd_msg_recv hdr stream =
      .ok ⟨stream.take (msg_cmd_sizes hdr.cmd),
           (stream.drop (msg_cmd_sizes hdr.cmd)).take
             (hdr.cmd_size - msg_cmd_sizes hdr.cmd),
           some ((stream.drop hdr.cmd_size).take
             (hdr.size - (MSG_HDR_LEN + hdr.cmd_size)))⟩ ∧
    (stream.take (msg_cmd_sizes hdr.cmd)).length = msg_cmd_sizes hdr.cmd ∧
    ((stream.drop (msg_cmd_sizes hdr.cmd)).take
        (hdr.cmd_size - msg_cmd_sizes hdr.cmd)).length
      = hdr.cmd_size - msg_cmd_sizes hdr.cmd ∧
    ((stream.drop hdr.cmd_size).take
        (hdr.size - (MSG_HDR_LEN + hdr.cmd_size))).length
      = hdr.size - (MSG_HDR_LEN + hdr.cmd_size) := by
  have hH : MSG_HDR_LEN = 12 := rfl
  have hM : MSG_MAX_LEN = 8192 := rfl
  have hN : MSG_NR_COMMANDS = 5 := rfl
  have hsch : msg_cmd_sizes hdr.cmd ≤ 12 := by
    unfold msg_cmd_sizes; split <;> omega
  have hcs31 : hdr.cmd_size < 2 ^ 31 := by omega
  have hcmd31 : hdr.cmd < 2 ^ 31 := by omega
  refine ⟨?_, ?_, ?_, ?_⟩
  · unfold tracecmd_msg_recv
    rw [if_neg (by omega), if_neg (by omega), if_pos (by omega)]
    unfold msg_read_extra
    rw [toInt32_eq_of_lt hcmd31, toInt32_eq_of_lt hcs31]
    rw [if_neg (by omega), if_neg (by omega)]
    simp only [Int.toNat_natCast]
    rw [if_pos hgt]
    rw [msg_read_ok stream (msg_cmd_sizes hdr.cmd) (by omega)]
    dsimp only
    rw [msg_read_ok (stream.drop (msg_cmd_sizes hdr.cmd))
        (hdr.cmd_size - msg_cmd_sizes hdr.cmd)
        (by simp [List.length_drop]; omega)]
    dsimp only
    rw [if_pos hsz]
    rw [List.drop_drop]
    have hdd : msg_cmd_sizes hdr.cmd + (hdr.cmd_size - msg_cmd_sizes hdr.cmd)
        = hdr.cmd_size := by omega
    rw [hdd]
    rw [msg_read_ok (stream.drop hdr.cmd_size)
        (hdr.size - (MSG_HDR_LEN + hdr.cmd_size))
        (by simp [List.length_drop]; omega)]
  · simp [List.length_take]; omega
  · simp [List.length_take, List.length_drop]; omega
  · simp [List.length_take, List.length_drop]; omega

/-- Witness for `recv_caps_fixed_and_sizes_var`: a SEND_DATA header
(schema size 0) declaring `cmd_size = 2` and total size 20 over an
8-byte stream: nothing goes to the fixed slot, 2 bytes are discarded,
and the 6 remaining bytes become the variable payload. -/
theorem recv_caps_fixed_and_sizes_var_witness :
    tracecmd_msg_recv ⟨20, 3, 2⟩ [1, 2, 3, 4, 5, 6, 7, 8] =
      .ok ⟨([1, 2, 3, 4, 5, 6, 7, 8] : List Nat).take (msg_cmd_sizes 3),
           (([1, 2, 3, 4, 5, 6, 7, 8] : List Nat).drop (msg_cmd_sizes 3)).take
             (2 - msg_cmd_sizes 3),
           some ((([1, 2, 3, 4, 5, 6, 7, 8] : List Nat).drop 2).take
             (20 - (MSG_HDR_LEN + 2)))⟩ ∧
    (([1, 2, 3, 4, 5, 6, 7, 8] : List Nat).take (msg_cmd_sizes 3)).length
      = msg_cmd_sizes 3 ∧
    ((([1, 2, 3, 4, 5, 6, 7, 8] : List Nat).drop (msg_cmd_sizes 3)).take
        (2 - msg_cmd_sizes 3)).length = 2 - msg_cmd_sizes 3 ∧
    ((([1, 2, 3, 4, 5, 6, 7, 8] : List Nat).drop 2).take
        (20 - (MSG_HDR_LEN + 2))).length = 20 - (MSG_HDR_LEN + 2) :=
  recv_caps_fixed_and_sizes_var ⟨20, 3, 2⟩ [1, 2, 3, 4, 5, 6, 7, 8]
    (by decide) (by decide) (by decide) (by decide) (by decide)

/-- C5: decoding the option list of a TINIT is strict.  `optLoop` is the
option-decoding loop of `tracecmd_msg_initial_setting`; if it completes
(no protocol error), then every option record it encountered carried the
recognized "use TCP" command (1) and a declared size within
`MAX_OPTION_SIZE`, and every prefix of the options' cumulative declared
size fits inside the enclosing message's declared size.  Contrapositive:
any oversized option, unrecognized option command, or cumulative overrun
makes the loop fail — it never skips a bad option and continues.  The
bound `hdrSize ≤ MSG_MAX_LEN` holds for every message delivered by
`tracecmd_msg_recv`. -/
theorem tinit_option_decoding_strict (optAt : Nat → MsgOpt)
    (hdrSize n offset size : Nat) (h h' : MsgHandle)
    (hbound : hdrSize ≤ MSG_MAX_LEN)
    (hsucc : optLoop optAt hdrSize n offset size h = .inr h') :
    (∀ opt ∈ optSeq optAt n offset,
      opt.opt_cmd = 1 ∧ opt.size ≤ MAX_OPTION_SIZE) ∧
    (∀ i < n, size + optPrefixSum optAt (i + 1) offset ≤ hdrSize) := by
  have hM : MSG_MAX_LEN = 8192 := rfl
  have hX : MAX_OPTION_SIZE = 4096 := rfl
  induction n generalizing offset size h with
  | zero =>
    constructor
    · simp [optSeq]
    · omega
  | succ n ih =>
    unfold optLoop at hsucc
    by_cases h1 : hdrSize < size + 8
    · rw [if_pos h1] at hsucc; simp at hsucc
    rw [if_neg h1] at hsucc
    dsimp only at hsucc
    by_cases h2 : hdrSize < (size + (optAt offset).size) % 2 ^ 32
    · rw [if_pos h2] at hsucc; simp at hsucc
    rw [if_neg h2] at hsucc
    by_cases h3 : MAX_OPTION_SIZE < (optAt offset).size
    · rw [if_pos h3] at hsucc; simp at hsucc
    rw [if_neg h3] at hsucc
    by_cases h4 : (optAt offset).opt_cmd = 1
    · simp only [process_option, if_pos h4] at hsucc
      have hnw : (size + (optAt offset).size) % 2 ^ 32
          = size + (optAt offset).size := Nat.mod_eq_of_lt (by omega)
      rw [hnw] at hsucc h2
      obtain ⟨ihm, ihs⟩ :=
        ih (offset + (optAt offset).size) (size + (optAt offset).size) _ hsucc
      constructor
      · intro opt hopt
        simp only [optSeq] at hopt
        rcases List.mem_cons.mp hopt with hhd | htail
        · subst hhd; exact ⟨h4, by omega⟩
        · exact ihm opt htail
      · intro i hi
        cases i with
        | zero =>
          simp only [optPrefixSum]
          omega
        | succ j =>
          have hj := ihs j (by omega)
          simp only [optPrefixSum] at hj ⊢
          omega
    · simp only [process_option, if_neg h4] at hsucc
      simp at hsucc

/-- Witness for `tinit_option_decoding_strict`: two well-formed "use TCP"
options of 8 bytes each inside a message of declared size 28
(12-byte header + 8 + 8); the loop completes having set the TCP flag. -/
theorem tinit_option_decoding_strict_witness :
    (∀ opt ∈ optSeq (fun _ => ⟨8, 1⟩) 2 0,
      opt.opt_cmd = 1 ∧ opt.size ≤ MAX_OPTION_SIZE) ∧
    (∀ i < 2, 12 + optPrefixSum (fun _ => ⟨8, 1⟩) (i + 1) 0 ≤ 28) :=
  tinit_option_decoding_strict (fun _ => ⟨8, 1⟩) 28 2 0 12
    ⟨0, 0, false⟩ ⟨2, 0, false⟩ (by decide) (by decide)

/-- Chunking equation of `tracecmd_msg_data_send` for a final (short)
chunk: one SEND_DATA message with header size `MSG_HDR_LEN + n`. -/
theorem data_send_small (buf : List Nat) (h0 : buf.length ≠ 0)
    (h1 : buf.length ≤ MSG_MAX_DATA_LEN) :
    tracecmd_msg_data_send buf = ([⟨MSG_HDR_LEN + buf.length, buf⟩], some 0) := by
  unfold tracecmd_msg_data_send
  rw [if_neg h0, if_neg (by omega)]

/-- Chunking equation of `tracecmd_msg_data_send` for a full chunk:
a SEND_DATA message with header size `MSG_MAX_LEN` carrying
`MSG_MAX_DATA_LEN` bytes, followed by the chunks of the rest. -/
theorem data_send_big (buf : List Nat) (h1 : MSG_MAX_DATA_LEN < buf.length) :
    tracecmd_msg_data_send buf =
      (⟨MSG_MAX_LEN, buf.take MSG_MAX_DATA_LEN⟩ ::
        (tracecmd_msg_data_send (buf.drop MSG_MAX_DATA_LEN)).1, some 0) := by
  conv_lhs => rw [tracecmd_msg_data_send.eq_def]
  rw [if_neg (by omega), if_pos h1]

/-- For a SEND_DATA message whose declared size is consistent with its
payload, the server's write loop writes exactly the payload length. -/
theorem writeLen_dataToRMsg (d : DataMsg)
    (hw : d.hdrSize = MSG_HDR_LEN + d.payload.length) :
    writeLen (dataToRMsg d) = d.payload.length := by
  simp [writeLen, dataToRMsg, hw, MSG_HDR_LEN]

/-- One step of the first `tracecmd_msg_collect_data` loop on a SEND_DATA
message: append its written bytes and continue. -/
theorem collectPhase1_cons_send (m : RMsg) (rest : List RMsg)
    (h3 : m.cmd = MSG_SEND_DATA) :
    collectPhase1 (m :: rest)
      = match collectPhase1 rest with
        | .inl (r, o) => .inl (r, m.buf.take (writeLen m) ++ o)
        | .inr (o, rest') => .inr (m.buf.take (writeLen m) ++ o, rest') := by
  simp only [collectPhase1, h3]
  rw [if_neg (by simp [MSG_SEND_DATA, MSG_FIN_DATA]),
      if_neg (by simp [MSG_SEND_DATA])]

/-- The first `tracecmd_msg_collect_data` loop over a block of
size-consistent SEND_DATA messages writes the concatenation of their
payloads and proceeds with the remaining stream. -/
theorem collectPhase1_data_msgs (msgs : List DataMsg) (rest : List RMsg)
    (hw : ∀ d ∈ msgs, d.hdrSize = MSG_HDR_LEN + d.payload.length) :
    collectPhase1 (msgs.map dataToRMsg ++ rest)
      = match collectPhase1 rest with
        | .inl (r, o) => .inl (r, (msgs.map DataMsg.payload).flatten ++ o)
        | .inr (o, rest') =>
          .inr ((msgs.map DataMsg.payload).flatten ++ o, rest') := by
  induction msgs with
  | nil =>
    simp only [List.map_nil, List.nil_append, List.flatten]
    rcases hres : collectPhase1 rest with ⟨r, o⟩ | ⟨o, rest'⟩ <;> simp
  | cons d msgs ih =>
    simp only [List.map_cons, List.cons_append]
    rw [collectPhase1_cons_send _ _ (by simp [dataToRMsg])]
    rw [ih (fun d hd => hw d (List.mem_cons_of_mem _ hd))]
    have hwl : writeLen (dataToRMsg d) = d.payload.length :=
      writeLen_dataToRMsg d (hw d (List.mem_cons_self _ _))
    simp only [dataToRMsg] at hwl
    rcases hres : collectPhase1 rest with ⟨r, o⟩ | ⟨o, rest'⟩ <;>
      simp [dataToRMsg, hwl, List.take_length]

/-- Structure of the SEND_DATA messages `tracecmd_msg_data_send` emits
for an input of `k * MSG_MAX_DATA_LEN + r` bytes (0 < r <
MSG_MAX_DATA_LEN): `k` full messages of header size `MSG_MAX_LEN`, a last
one of header size `MSG_HDR_LEN + r`, payloads concatenating back to the
input, every message size-consistent. -/
theorem data_send_chunks (k : Nat) :
    ∀ (r : Nat) (buf : List Nat),
    buf.length = k * MSG_MAX_DATA_LEN + r → 0 < r → r < MSG_MAX_DATA_LEN →
    ((tracecmd_msg_data_send buf).1.map DataMsg.hdrSize
        = List.replicate k MSG_MAX_LEN ++ [MSG_HDR_LEN + r]) ∧
    ((tracecmd_msg_data_send buf).1.map DataMsg.payload).flatten = buf ∧
    (∀ d ∈ (tracecmd_msg_data_send buf).1,
      d.hdrSize = MSG_HDR_LEN + d.payload.length) := by
  have hD : MSG_MAX_DATA_LEN = 8180 := rfl
  induction k with
  | zero =>
    intro r buf hlen hr0 hr1
    rw [data_send_small buf (by omega) (by omega)]
    refine ⟨by simp [hlen], by simp, ?_⟩
    intro d hd
    simp at hd
    simp [hd]
  | succ k ih =>
    intro r buf hlen hr0 hr1
    rw [hD] at hlen
    have hbig : MSG_MAX_DATA_LEN < buf.length := by omega
    rw [data_send_big buf hbig]
    have hdrop : (buf.drop MSG_MAX_DATA_LEN).length = k * MSG_MAX_DATA_LEN + r := by
      rw [List.length_drop, hD]
      omega
    obtain ⟨ih1, ih2, ih3⟩ := ih r (buf.drop MSG_MAX_DATA_LEN) hdrop hr0 hr1
    refine ⟨?_, ?_, ?_⟩
    · simp only [List.map_cons, ih1, List.replicate_succ, List.cons_append]
    · simp only [List.map_cons, List.flatten_cons, ih2]
      exact List.take_append_drop _ _
    · intro d hd
      rcases List.mem_cons.mp hd with hhd | htail
      · subst hhd
        simp [List.length_take, MSG_MAX_LEN, MSG_HDR_LEN]
        omega
      · exact ih3 d htail

/-- C7: for an input of exactly `k * MSG_MAX_DATA_LEN + r` bytes
(0 < r < MSG_MAX_DATA_LEN), the client's bulk send emits exactly `k + 1`
SEND_DATA messages — the first `k` with header size 8192 and the last
with header size `12 + r` — and the server's
`tracecmd_msg_collect_data`, fed those messages followed by the client's
FIN_DATA and CLOSE, writes the original bytes to the output sink
verbatim, in order and with the same length, returning success. -/
theorem data_send_collect_roundtrip (k r : Nat) (buf : List Nat)
    (hlen : buf.length = k * MSG_MAX_DATA_LEN + r) (hr0 : 0 < r)
    (hr1 : r < MSG_MAX_DATA_LEN) :
    ((tracecmd_msg_data_send buf).1.map DataMsg.hdrSize
        = List.replicate k MSG_MAX_LEN ++ [MSG_HDR_LEN + r]) ∧
    (tracecmd_msg_data_send buf).1.length = k + 1 ∧
    tracecmd_msg_collect_data false
        ((tracecmd_msg_data_send buf).1.map dataToRMsg ++
          [⟨MSG_FIN_DATA, MSG_HDR_LEN, 0, []⟩, ⟨MSG_CLOSE, MSG_HDR_LEN, 0, []⟩])
      = (0, buf) := by
  obtain ⟨h1, h2, h3⟩ := data_send_chunks k r buf hlen hr0 hr1
  refine ⟨h1, ?_, ?_⟩
  · have hl := congrArg List.length h1
    simpa using hl
  · unfold tracecmd_msg_collect_data
    rw [collectPhase1_data_msgs _ _ h3]
    have hfc : collectPhase1
        [⟨MSG_FIN_DATA, MSG_HDR_LEN, 0, []⟩, ⟨MSG_CLOSE, MSG_HDR_LEN, 0, []⟩]
        = .inr ([], [⟨MSG_CLOSE, MSG_HDR_LEN, 0, []⟩]) := by rfl
    rw [hfc]
    simp [h2, MSG_CLOSE]

/-- Witness for `data_send_collect_roundtrip`: 8183 bytes, i.e.
`k = 1` full chunk plus `r = 3` remaining bytes. -/
theorem data_send_collect_roundtrip_witness :
    ((tracecmd_msg_data_send (List.replicate 8183 9)).1.map DataMsg.hdrSize
        = List.replicate 1 MSG_MAX_LEN ++ [MSG_HDR_LEN + 3]) ∧
    (tracecmd_msg_data_send (List.replicate 8183 9)).1.length = 1 + 1 ∧
    tracecmd_msg_collect_data false
        ((tracecmd_msg_data_send (List.replicate 8183 9)).1.map dataToRMsg ++
          [⟨MSG_FIN_DATA, MSG_HDR_LEN, 0, []⟩, ⟨MSG_CLOSE, MSG_HDR_LEN, 0, []⟩])
      = (0, List.replicate 8183 9) :=
  data_send_collect_roundtrip 1 3 (List.replicate 8183 9)
    (by rw [List.length_replicate]; decide) (by decide) (by decide)
